import Mathlib

/-!
Shallow embedding of the churon inference-session core
(src/rust/src/lib.rs): the error taxonomy, execution-provider
resolution, the R/Rust data converters, input validation and the
end-to-end `run` pipeline of `RSession`.

Machine floating-point values are kept abstract: the element types of
32-bit and 64-bit floats are type parameters `F32` and `F64`, and the
numeric casts (Rust `as f32`, `as f64`) are explicit function
parameters, so every theorem quantifies over the rounding behaviour
instead of fixing an IEEE model.  Machine integers are modelled as
`Int` with explicit reduction modulo powers of two where a Rust `as`
cast truncates.  The native ONNX Runtime engine is an external
collaborator; it enters the model only as an explicit callback
(`buildSession` at load time, `engineRun` inside `run`).
-/

set_option autoImplicit false

namespace Churon

variable {α : Type} {F32 F64 : Type}

/-- Error taxonomy of the package (`enum ChurOnError` in lib.rs). -/
inductive ChurOnError : Type
  | modelLoad (msg : String)
  | inference (msg : String)
  | dataConversion (msg : String)
  | validation (msg : String)
  | provider (msg : String)
deriving DecidableEq

/-- Rendering of `impl fmt::Display for ChurOnError`. -/
def churOnDisplay : ChurOnError → String
  | .modelLoad msg => "Model load error: " ++ msg
  | .inference msg => "Inference error: " ++ msg
  | .dataConversion msg => "Data conversion error: " ++ msg
  | .validation msg => "Validation error: " ++ msg
  | .provider msg => "Provider error: " ++ msg

/-- Decidable equality for `Except` results, used to evaluate concrete
runs of the embedded functions. -/
def exceptDecEq {ε σ : Type} [DecidableEq ε] [DecidableEq σ] :
    DecidableEq (Except ε σ)
  | .error x, .error y =>
    if h : x = y then isTrue (h ▸ rfl) else isFalse (fun hc => h (Except.error.inj hc))
  | .error _, .ok _ => isFalse (fun hc => Except.noConfusion hc)
  | .ok _, .error _ => isFalse (fun hc => Except.noConfusion hc)
  | .ok x, .ok y =>
    if h : x = y then isTrue (h ▸ rfl) else isFalse (fun hc => h (Except.ok.inj hc))

instance {ε σ : Type} [DecidableEq ε] [DecidableEq σ] : DecidableEq (Except ε σ) :=
  exceptDecEq

/-- Execution-provider kinds recognised by
`RSession::get_execution_providers`.  In the source every variant
carries `Default::default()` configuration, which holds no
claim-relevant information, so the payloads are omitted. -/
inductive ExecutionProvider : Type
  | cpu
  | cuda
  | tensorrt
  | directml
  | onednn
  | coreml
deriving DecidableEq

/-- Rust `str::to_lowercase` as used on provider names (all ASCII):
char-wise lower-casing. -/
def strToLower (s : String) : String :=
  String.mk (s.data.map Char.toLower)

/-- Body of the provider-name match inside
`RSession::get_execution_providers` (lines 431-439): lower-case the
requested name and map it to a provider, failing on unknown names. -/
def parseProvider (provider_name : String) : Except ChurOnError ExecutionProvider :=
  match strToLower provider_name with
  | "cuda" => .ok .cuda
  | "tensorrt" => .ok .tensorrt
  | "directml" => .ok .directml
  | "onednn" => .ok .onednn
  | "coreml" => .ok .coreml
  | "cpu" => .ok .cpu
  | _ => .error (.provider ("Unknown execution provider: " ++ provider_name))

/-- Loop of `get_execution_providers` over the requested names: push
each parsed provider in order, aborting on the first unknown name. -/
def parseProviders : List String → Except ChurOnError (List ExecutionProvider)
  | [] => .ok []
  | provider_name :: rest =>
    match parseProvider provider_name with
    | .error e => .error e
    | .ok ep =>
      match parseProviders rest with
      | .error e => .error e
      | .ok eps => .ok (ep :: eps)

/-- `RSession::get_execution_providers`: a requested list is parsed
name by name and CPU is appended when absent; no request yields the
fixed default catalog ending in CPU. -/
def get_execution_providers (providers : Option (List String)) :
    Except ChurOnError (List ExecutionProvider) :=
  match providers with
  | some provider_names =>
    match parseProviders provider_names with
    | .error e => .error e
    | .ok execution_providers =>
      if execution_providers.contains .cpu then
        .ok execution_providers
      else
        .ok (execution_providers ++ [.cpu])
  | none =>
    .ok [.cuda, .tensorrt, .directml, .onednn, .coreml, .cpu]

/-- Number of requested names that resolve to the CPU provider; this is
the bookkeeping claims C3 and C4 need over a request. -/
def requestedCpuCount : Option (List String) → Nat
  | none => 0
  | some names => names.countP (fun n => parseProvider n == Except.ok ExecutionProvider.cpu)

/-- Rust `Debug` rendering of a shape slice (the `\x7b:?\x7d` format on
`&[usize]`). -/
def debugNatList (xs : List Nat) : String :=
  "[" ++ String.intercalate ", " (xs.map toString) ++ "]"

/-- Rust `Debug` rendering of a vector of strings. -/
def debugStrList (xs : List String) : String :=
  "[" ++ String.intercalate ", " (xs.map (fun sx => "\"" ++ sx ++ "\"")) ++ "]"

/-- Model of `ndarray::ArrayD`: a dynamic-rank array is its shape plus
its row-major element buffer. -/
structure ArrayD (α : Type) : Type where
  shape : List Nat
  data : List α
deriving DecidableEq

/-- Model of `ArrayD::from_shape_vec`: succeeds exactly when the buffer
length matches the product of the shape. -/
def from_shape_vec (shape : List Nat) (data : List α) : Except String (ArrayD α) :=
  if data.length = shape.prod then .ok ⟨shape, data⟩
  else .error ("ShapeError")

/-- `DataConverter::r_to_ndarray_f32`: cast every element of the R
double vector with `as f32` (the cast is the `toF32` parameter) and
build an array of the given shape, failing when the flattened length
does not match the shape product. -/
def r_to_ndarray_f32 (toF32 : F64 → F32) (r_data : List F64) (shape : List Nat) :
    Except ChurOnError (ArrayD F32) :=
  let data := r_data.map toF32
  let total_elements := shape.prod
  if data.length ≠ total_elements then
    .error (.dataConversion ("Data length " ++ toString data.length ++
      " doesn\x27t match shape " ++ debugNatList shape ++
      " (expected " ++ toString total_elements ++ ")"))
  else
    match from_shape_vec shape data with
    | .ok a => .ok a
    | .error e => .error (.dataConversion ("Failed to create ndarray: " ++ e))

/-- `DataConverter::ndarray_f32_to_r`: widen every element with
`as f64` (the `toF64` parameter) into a flat R double vector; there is
no failure path and no `dim` attribute is attached. -/
def ndarray_f32_to_r (toF64 : F32 → F64) (array : ArrayD F32) :
    Except ChurOnError (List F64) :=
  .ok (array.data.map toF64)

/-- `DataConverter::ndarray_f64_to_r`: clone the elements into a flat R
double vector; no failure path, no `dim` attribute. -/
def ndarray_f64_to_r (array : ArrayD F64) : Except ChurOnError (List F64) :=
  .ok array.data

/-- Rust `x as i32` applied to an `i64`: keep the low 32 bits and
re-interpret them as a two\x27s-complement signed value. -/
def i64_as_i32 (x : Int) : Int :=
  (x + 2 ^ 31) % 2 ^ 32 - 2 ^ 31

/-- `DataConverter::ndarray_i64_to_r`: every element is narrowed with
`as i32`; the conversion has no failure path. -/
def ndarray_i64_to_r (array : ArrayD Int) : Except ChurOnError (List Int) :=
  .ok (array.data.map i64_as_i32)

/-- `DataConverter::get_r_array_shape` on a plain vector: values built
by `Doubles::from_values` carry no `dim` attribute, so the reported
shape is the length as a single dimension. -/
def get_r_array_shape (v : List F64) : List Nat :=
  [v.length]

/-- Caller-side R value as far as `run` inspects it: either an R double
vector (`Doubles::try_from` succeeds) or anything else (the attempted
conversion fails). -/
inductive Robj (F64 : Type) : Type
  | doubles (v : List F64)
  | other
deriving DecidableEq

/-- An R list: positional entries plus an optional names attribute. -/
structure RList (F64 : Type) : Type where
  entries : List (Robj F64)
  names : Option (List String)
deriving DecidableEq

/-- Session metadata held by `struct RSession`.  The native
`ort::Session` handle is external state: `run` consults it only through
the engine callback, which the embedding passes explicitly.  The
lazily-computed `TensorInfo` caches play no role in any claim. -/
structure RSession : Type where
  input_names : List String
  output_names : List String
  input_shapes : List (List Int)
  output_shapes : List (List Int)
  providers : List String
  model_path : String
deriving DecidableEq

/-- `RSession::validate_session`: a well-formed session has non-empty
input names, output names and model path. -/
def validate_session (s : RSession) : Except ChurOnError Unit :=
  if s.input_names.isEmpty then
    .error (.validation ("Session has no input tensors defined"))
  else if s.output_names.isEmpty then
    .error (.validation ("Session has no output tensors defined"))
  else if s.model_path.isEmpty then
    .error (.validation ("Session has no model path defined"))
  else
    .ok ()

/-- `RSession::validate_inputs`: reject an empty list, a nameless
list, a missing required input (first in declared order) and an
unexpected provided input (first in provided order). -/
def validate_inputs (s : RSession) (inputs : RList F64) : Except ChurOnError Unit :=
  if inputs.entries.length = 0 then
    .error (.validation ("No input data provided"))
  else
    let input_names := inputs.names.getD []
    if input_names.length = 0 then
      .error (.validation ("Input data must be a named list"))
    else
      match s.input_names.find? (fun required => !(input_names.contains required)) with
      | some required =>
        .error (.validation ("Required input \x27" ++ required ++ "\x27 not provided"))
      | none =>
        match input_names.find? (fun provided => !(s.input_names.contains provided)) with
        | some provided =>
          .error (.validation ("Unexpected input \x27" ++ provided ++
            "\x27 provided. Expected inputs: " ++ debugStrList s.input_names))
        | none => .ok ()

/-- Rust `Iterator::position`: index of the first element satisfying
the predicate. -/
def listPosition (p : α → Bool) : List α → Option Nat
  | [] => none
  | a :: as => if p a then some 0 else (listPosition p as).map (fun n => n + 1)

/-- Conversion of one expected dimension to `usize` inside
`prepare_input_tensors` (lines 280-282): `-1` becomes `1`, anything
else is cast with `as usize`, which wraps modulo `2 ^ 64` (the shapes
recorded at load time only ever contain `-1` or non-negative
entries). -/
def dimToUsize (x : Int) : Nat :=
  if x = -1 then 1 else (x % (2 : Int) ^ 64).toNat

/-- `HashMap::insert`, modelled on an association list: replace the
binding when the key is already present, append otherwise. -/
def hmInsert (m : List (String × α)) (k : String) (v : α) : List (String × α) :=
  if m.any (fun p => p.1 == k) then
    m.map (fun p => if p.1 == k then (k, v) else p)
  else
    m ++ [(k, v)]

/-- Loop of `RSession::prepare_input_tensors`, one `(name, value)` pair
at a time, accumulating the tensor map. -/
def prepare_go (toF32 : F64 → F32) (s : RSession) :
    List (String × Robj F64) → List (String × ArrayD F32) →
    Except ChurOnError (List (String × ArrayD F32))
  | [], input_tensors => .ok input_tensors
  | (input_name, input_robj) :: rest, input_tensors =>
    match listPosition (fun x => x == input_name) s.input_names with
    | none => .error (.validation ("Unknown input name: " ++ input_name))
    | some idx =>
      let expected_shape := s.input_shapes.getD idx []
      let shape_usize := expected_shape.map dimToUsize
      match input_robj with
      | .doubles d =>
        match r_to_ndarray_f32 toF32 d shape_usize with
        | .ok tensor => prepare_go toF32 s rest (hmInsert input_tensors input_name tensor)
        | .error e => .error e
      | .other =>
        .error (.dataConversion ("Failed to convert input \x27" ++ input_name ++
          "\x27 to numeric data"))

/-- `RSession::prepare_input_tensors`: iterate the names of the
caller\x27s list, positionally paired with its entries, starting from
an empty map. -/
def prepare_input_tensors (toF32 : F64 → F32) (s : RSession) (inputs : RList F64) :
    Except ChurOnError (List (String × ArrayD F32)) :=
  prepare_go toF32 s ((inputs.names.getD []).zip inputs.entries) []

/-- Engine-side `ort::Value` as far as output decoding inspects it:
`try_extract::<f32>` succeeds exactly on the first constructor and
`try_extract::<f64>` exactly on the second. -/
inductive OrtValue (F32 F64 : Type) : Type
  | f32 (t : ArrayD F32)
  | f64 (t : ArrayD F64)
  | other
deriving DecidableEq

/-- `RSession::convert_to_ort_values`: the placeholder implementation
unconditionally fails with a `DataConversion` error. -/
def convert_to_ort_values (_s : RSession) (_tensors : List (String × ArrayD F32)) :
    Except ChurOnError (List (OrtValue F32 F64)) :=
  .error (.dataConversion ("Tensor conversion not yet implemented"))

/-- Output naming in `convert_outputs_to_r`: the i-th engine output
gets the i-th declared output name, with fall-back name `output_i`. -/
def outputName (s : RSession) (i : Nat) : String :=
  (s.output_names[i]?).getD ("output_" ++ toString i)

/-- Loop of `RSession::convert_outputs_to_r` over the engine\x27s output
vector, carrying the running index `i`: attempt `f32` extraction, then
`f64`, then fail naming the output; both successful paths produce an R
double vector. -/
def convert_outputs_go (toF64 : F32 → F64) (s : RSession) (i : Nat) :
    List (OrtValue F32 F64) → Except ChurOnError (List (String × Robj F64))
  | [] => .ok []
  | output :: rest =>
    let output_name := outputName s i
    match output with
    | .f32 t =>
      match ndarray_f32_to_r toF64 t with
      | .ok d =>
        match convert_outputs_go toF64 s (i + 1) rest with
        | .ok l => .ok ((output_name, Robj.doubles d) :: l)
        | .error e => .error e
      | .error e =>
        .error (.dataConversion ("Failed to convert output: " ++ churOnDisplay e))
    | .f64 t =>
      match ndarray_f64_to_r t with
      | .ok d =>
        match convert_outputs_go toF64 s (i + 1) rest with
        | .ok l => .ok ((output_name, Robj.doubles d) :: l)
        | .error e => .error e
      | .error e =>
        .error (.dataConversion ("Failed to convert output: " ++ churOnDisplay e))
    | .other =>
      .error (.dataConversion ("Unsupported output data type for \x27" ++
        output_name ++ "\x27"))

/-- `RSession::convert_outputs_to_r`: run the loop from index 0, then
assemble the collected values into a list named by the collected
names. -/
def convert_outputs_to_r (toF64 : F32 → F64) (s : RSession)
    (outputs : List (OrtValue F32 F64)) : Except ChurOnError (RList F64) :=
  match convert_outputs_go toF64 s 0 outputs with
  | .ok pairs => .ok ⟨pairs.map Prod.snd, some (pairs.map Prod.fst)⟩
  | .error e => .error e

/-- `RSession::run`: validate the session, validate the inputs, prepare
the input tensors, convert them to engine values, execute the engine
and decode its outputs.  The engine execution entry point
(`self.session.run`) is the explicit `engineRun` callback. -/
def run (engineRun : List (OrtValue F32 F64) → Except String (List (OrtValue F32 F64)))
    (toF32 : F64 → F32) (toF64 : F32 → F64) (s : RSession) (inputs : RList F64) :
    Except ChurOnError (RList F64) :=
  match validate_session s with
  | .error e => .error e
  | .ok _ =>
    match validate_inputs s inputs with
    | .error e => .error e
    | .ok _ =>
      match prepare_input_tensors toF32 s inputs with
      | .error e => .error e
      | .ok input_tensors =>
        match convert_to_ort_values s input_tensors with
        | .error e => .error e
        | .ok ort_inputs =>
          match engineRun ort_inputs with
          | .error e =>
            .error (ChurOnError.inference ("Inference execution failed: " ++ e))
          | .ok outputs => convert_outputs_to_r toF64 s outputs

/-- Engine-reported metadata of one input or output tensor
(`ort::session::Input` and `Output`): a name plus optional static
dimensions. -/
structure EngineTensor : Type where
  name : String
  dimensions : List (Option Nat)
deriving DecidableEq

/-- Engine session handle as far as loading inspects it. -/
structure EngineSession : Type where
  inputs : List EngineTensor
  outputs : List EngineTensor
deriving DecidableEq

/-- `RSession::extract_used_providers`: the simplified implementation
ignores the session and reports a fixed singleton list. -/
def extract_used_providers (_session : EngineSession) : List String :=
  ["CPU"]

/-- `RSession::from_path_with_providers_internal`.  Environment setup
and native session construction are abstracted as the `buildSession`
callback; provider resolution, metadata extraction (dynamic dimensions
become the sentinel `-1`) and the recorded provider list follow the
source. -/
def from_path_with_providers_internal
    (buildSession : String → List ExecutionProvider → Except String EngineSession)
    (path : String) (providers : Option (List String)) :
    Except ChurOnError RSession :=
  match get_execution_providers providers with
  | .error e => .error e
  | .ok execution_providers =>
    match buildSession path execution_providers with
    | .error e =>
      .error (ChurOnError.modelLoad ("Failed to load model from " ++ path ++ ": " ++ e))
    | .ok session =>
      let input_names := session.inputs.map (fun i => i.name)
      let output_names := session.outputs.map (fun o => o.name)
      let input_shapes := session.inputs.map (fun i =>
        i.dimensions.map (fun dim => (dim.map (fun d => (d : Int))).getD (-1)))
      let output_shapes := session.outputs.map (fun o =>
        o.dimensions.map (fun dim => (dim.map (fun d => (d : Int))).getD (-1)))
      let used_providers := extract_used_providers session
      .ok ⟨input_names, output_names, input_shapes, output_shapes, used_providers, path⟩

/-- `RSession::get_providers`: return the provider list recorded at
load time. -/
def get_providers (s : RSession) : List String :=
  s.providers

/-- Effective-shape selection exactly as claim C1 words it, kept for
comparison against the code: when the declared shape contains a zero or
a `-1`, take the literal shape of the caller\x27s value; otherwise take
the declared shape with every `-1` coerced to `1`. -/
def effectiveShapeSpec (declared : List Int) (literal : List Nat) : List Nat :=
  if declared.any (fun d => d == 0 || d == -1) then literal
  else declared.map (fun d => if d = -1 then 1 else d.toNat)

/-- Successful `r_to_ndarray_f32` calls return exactly the requested
shape together with the cast data. -/
theorem r_to_ndarray_f32_ok (toF32 : F64 → F32) (r_data : List F64) (shape : List Nat)
    (t : ArrayD F32) (h : r_to_ndarray_f32 toF32 r_data shape = .ok t) :
    t.shape = shape ∧ t.data = r_data.map toF32 := by
  have hlen : r_data.length = shape.prod := by
    by_contra hc
    simp [r_to_ndarray_f32, hc] at h
  simp [r_to_ndarray_f32, from_shape_vec, hlen] at h
  cases h
  exact ⟨rfl, rfl⟩

/-- Membership in the modelled `HashMap::insert`: an element of the
updated map is the new binding or an element of the old map. -/
theorem hmInsert_mem {m : List (String × α)} {k : String} {v : α} {x : String × α}
    (h : x ∈ hmInsert m k v) : x = (k, v) ∨ x ∈ m := by
  unfold hmInsert at h
  split at h
  · obtain ⟨p, hp, hx⟩ := List.mem_map.mp h
    by_cases hk : p.1 == k
    · simp only [if_pos hk] at hx
      exact Or.inl hx.symm
    · simp only [if_neg hk] at hx
      exact Or.inr (hx ▸ hp)
  · rcases List.mem_append.mp h with hm | hs
    · exact Or.inr hm
    · simp only [List.mem_singleton] at hs
      exact Or.inl hs

/-- Invariant of the `prepare_input_tensors` loop: every tensor in the
produced map was built against the declared shape of its input, with
every `-1` dimension coerced to `1`. -/
theorem prepare_go_shape (toF32 : F64 → F32) (s : RSession) :
    ∀ (entries : List (String × Robj F64)) (acc m : List (String × ArrayD F32)),
      (∀ n t, (n, t) ∈ acc → ∀ idx,
        listPosition (fun x => x == n) s.input_names = some idx →
        t.shape = (s.input_shapes.getD idx []).map dimToUsize) →
      prepare_go toF32 s entries acc = .ok m →
      ∀ n t, (n, t) ∈ m → ∀ idx,
        listPosition (fun x => x == n) s.input_names = some idx →
        t.shape = (s.input_shapes.getD idx []).map dimToUsize := by
  intro entries
  induction entries with
  | nil =>
    intro acc m hacc h
    simp only [prepare_go] at h
    cases h
    exact hacc
  | cons e rest ih =>
    obtain ⟨input_name, input_robj⟩ := e
    intro acc m hacc h
    cases hpos : listPosition (fun x => x == input_name) s.input_names with
    | none =>
      simp only [prepare_go, hpos] at h
      exact Except.noConfusion h
    | some idx =>
      cases input_robj with
      | other =>
        simp only [prepare_go, hpos] at h
        exact Except.noConfusion h
      | doubles d =>
        cases hconv : r_to_ndarray_f32 toF32 d ((s.input_shapes.getD idx []).map dimToUsize) with
        | error e2 =>
          simp only [prepare_go, hpos, hconv] at h
          exact Except.noConfusion h
        | ok tensor =>
          have hstep : prepare_go toF32 s ((input_name, Robj.doubles d) :: rest) acc =
              prepare_go toF32 s rest (hmInsert acc input_name tensor) := by
            simp only [prepare_go, hpos, hconv]
          rw [hstep] at h
          refine ih (hmInsert acc input_name tensor) m ?_ h
          intro n t hmem idx2 hpos2
          rcases hmInsert_mem hmem with heq | hold
          · cases heq
            rw [hpos] at hpos2
            cases hpos2
            exact (r_to_ndarray_f32_ok toF32 d _ tensor hconv).1
          · exact hacc n t hold idx2 hpos2

/-- C10: converting a 64-bit integer array to the caller side narrows
every element with `as i32`: the value is reduced modulo `2 ^ 32` into
the signed 32-bit range, elements already in that range are preserved,
elements outside it always change, and the conversion never fails. -/
theorem C10_i64_narrowing (array : ArrayD Int) :
    ndarray_i64_to_r array = .ok (array.data.map i64_as_i32) ∧
    (∀ x : Int, i64_as_i32 x % 2 ^ 32 = x % 2 ^ 32) ∧
    (∀ x : Int, -2 ^ 31 ≤ x → x < 2 ^ 31 → i64_as_i32 x = x) ∧
    (∀ x : Int, 2 ^ 31 ≤ x ∨ x < -2 ^ 31 → i64_as_i32 x ≠ x) := by
  refine ⟨rfl, ?_, ?_, ?_⟩
  · intro x
    simp only [i64_as_i32]
    omega
  · intro x h1 h2
    simp only [i64_as_i32]
    omega
  · intro x h
    simp only [i64_as_i32]
    omega

/-- Witness for C10 at a concrete array: an in-range element survives,
an out-of-range element wraps. -/
theorem C10_i64_narrowing_witness :
    ndarray_i64_to_r ⟨[2], [5, 2147483648]⟩ = .ok [5, -2147483648] ∧
    i64_as_i32 5 = 5 ∧ i64_as_i32 2147483648 ≠ 2147483648 := by
  obtain ⟨h1, _h2, h3, h4⟩ := C10_i64_narrowing ⟨[2], [5, 2147483648]⟩
  refine ⟨?_, h3 5 (by decide) (by decide), h4 2147483648 (Or.inl (by decide))⟩
  rw [h1]
  decide

/-- C9: whatever the engine reports at load time and whatever providers
were requested, the recorded provider list of a successfully loaded
session is exactly `["CPU"]`. -/
theorem C9_get_providers_cpu
    (buildSession : String → List ExecutionProvider → Except String EngineSession)
    (path : String) (providers : Option (List String)) (s : RSession)
    (h : from_path_with_providers_internal buildSession path providers = .ok s) :
    get_providers s = ["CPU"] := by
  cases heps : get_execution_providers providers with
  | error e => simp [from_path_with_providers_internal, heps] at h
  | ok eps =>
    cases hb : buildSession path eps with
    | error e => simp [from_path_with_providers_internal, heps, hb] at h
    | ok sess =>
      simp only [from_path_with_providers_internal, heps, hb] at h
      cases h
      rfl

/-- Witness for C9 with a concrete engine-build callback. -/
theorem C9_get_providers_cpu_witness :
    get_providers ⟨["x"], ["y"], [[2]], [[1]], ["CPU"], "m"⟩ = ["CPU"] :=
  C9_get_providers_cpu
    (fun _ _ => Except.ok ⟨[⟨"x", [some 2]⟩], [⟨"y", [some 1]⟩]⟩) "m" none
    ⟨["x"], ["y"], [[2]], [[1]], ["CPU"], "m"⟩ rfl

/-- C8: when session validation, input validation and tensor
preparation all succeed, `run` fails with the fixed `DataConversion`
error of the unimplemented tensor conversion; moreover `run` never
returns an output bag and its result does not depend on the engine
callback, so the engine execution entry point is never consulted. -/
theorem C8_run_always_fails
    (engineRun engineRun2 : List (OrtValue F32 F64) → Except String (List (OrtValue F32 F64)))
    (toF32 : F64 → F32) (toF64 : F32 → F64) (s : RSession) (inputs : RList F64) :
    (validate_session s = .ok () → validate_inputs s inputs = .ok () →
      (∃ m, prepare_input_tensors toF32 s inputs = .ok m) →
      run engineRun toF32 toF64 s inputs =
        .error (.dataConversion ("Tensor conversion not yet implemented"))) ∧
    (∀ res, run engineRun toF32 toF64 s inputs ≠ .ok res) ∧
    run engineRun toF32 toF64 s inputs = run engineRun2 toF32 toF64 s inputs := by
  have hchar : ∀ eng : List (OrtValue F32 F64) → Except String (List (OrtValue F32 F64)),
      ∃ err : ChurOnError, run eng toF32 toF64 s inputs = .error err ∧
        (validate_session s = .ok () → validate_inputs s inputs = .ok () →
          (∃ m, prepare_input_tensors toF32 s inputs = .ok m) →
          err = .dataConversion ("Tensor conversion not yet implemented")) := by
    intro eng
    cases hvs : validate_session s with
    | error e =>
      refine ⟨e, by simp [run, hvs], ?_⟩
      intro h1
      exact Except.noConfusion h1
    | ok u =>
      cases u
      cases hvi : validate_inputs s inputs with
      | error e =>
        refine ⟨e, by simp [run, hvs, hvi], ?_⟩
        intro _ h2
        exact Except.noConfusion h2
      | ok u2 =>
        cases u2
        cases hp : prepare_input_tensors toF32 s inputs with
        | error e =>
          refine ⟨e, by simp [run, hvs, hvi, hp], ?_⟩
          intro _ _ h3
          obtain ⟨m, hm⟩ := h3
          exact Except.noConfusion hm
        | ok m =>
          exact ⟨.dataConversion ("Tensor conversion not yet implemented"),
            by simp [run, hvs, hvi, hp, convert_to_ort_values], fun _ _ _ => rfl⟩
  obtain ⟨err, herr, himpl⟩ := hchar engineRun
  obtain ⟨err2, herr2, himpl2⟩ := hchar engineRun2
  refine ⟨?_, ?_, ?_⟩
  · intro h1 h2 h3
    rw [herr, himpl h1 h2 h3]
  · intro res hres
    rw [herr] at hres
    cases hres
  · have : err = err2 := by
      by_cases h1 : validate_session s = .ok ()
      · by_cases h2 : validate_inputs s inputs = .ok ()
        · by_cases h3 : ∃ m, prepare_input_tensors toF32 s inputs = .ok m
          · rw [himpl h1 h2 h3, himpl2 h1 h2 h3]
          · cases hp : prepare_input_tensors toF32 s inputs with
            | error e =>
              have he1 : run engineRun toF32 toF64 s inputs = .error e := by
                simp [run, h1, h2, hp]
              have he2 : run engineRun2 toF32 toF64 s inputs = .error e := by
                simp [run, h1, h2, hp]
              rw [herr] at he1
              rw [herr2] at he2
              cases he1
              cases he2
              rfl
            | ok m => exact absurd ⟨m, hp⟩ h3
        · cases hvi : validate_inputs s inputs with
          | error e =>
            have he1 : run engineRun toF32 toF64 s inputs = .error e := by
              simp [run, h1, hvi]
            have he2 : run engineRun2 toF32 toF64 s inputs = .error e := by
              simp [run, h1, hvi]
            rw [herr] at he1
            rw [herr2] at he2
            cases he1
            cases he2
            rfl
          | ok u => cases u; exact absurd hvi h2
      · cases hvs : validate_session s with
        | error e =>
          have he1 : run engineRun toF32 toF64 s inputs = .error e := by
            simp [run, hvs]
          have he2 : run engineRun2 toF32 toF64 s inputs = .error e := by
            simp [run, hvs]
          rw [herr] at he1
          rw [herr2] at he2
          cases he1
          cases he2
          rfl
        | ok u => cases u; exact absurd hvs h1
    rw [herr, herr2, this]

/-- Witness for C8: a session and input bag on which the first three
pipeline stages succeed, yet `run` fails with the unimplemented-tensor
error. -/
theorem C8_run_always_fails_witness :
    run (fun o => Except.ok o) ((fun x => x) : Int → Int) ((fun x => x) : Int → Int)
        ⟨["x"], ["y"], [[2]], [[1]], ["CPU"], "m"⟩ ⟨[Robj.doubles [1, 2]], some ["x"]⟩ =
      .error (.dataConversion ("Tensor conversion not yet implemented")) :=
  (C8_run_always_fails (fun o => Except.ok o) (fun o => Except.ok o)
    (fun x => x) (fun x => x) ⟨["x"], ["y"], [[2]], [[1]], ["CPU"], "m"⟩
    ⟨[Robj.doubles [1, 2]], some ["x"]⟩).1 rfl (by decide)
    ⟨[("x", ⟨[2], [1, 2]⟩)], by decide⟩

/-- C7 (amended): encoding a numeric array whose length matches the
shape product succeeds, the encoded tensor carries the declared shape,
and decoding widens every element back through the two casts into a
flat vector whose literal R shape is the element count, not the
declared multi-dimensional shape. -/
theorem C7_roundtrip_amended (toF32 : F64 → F32) (toF64 : F32 → F64)
    (r_data : List F64) (shape : List Nat) (h : r_data.length = shape.prod) :
    r_to_ndarray_f32 toF32 r_data shape = .ok ⟨shape, r_data.map toF32⟩ ∧
    ndarray_f32_to_r toF64 ⟨shape, r_data.map toF32⟩ =
      .ok ((r_data.map toF32).map toF64) ∧
    get_r_array_shape ((r_data.map toF32).map toF64) = [shape.prod] := by
  refine ⟨?_, rfl, by simp [get_r_array_shape, h]⟩
  simp [r_to_ndarray_f32, from_shape_vec, h]

/-- Witness for C7 (amended) at a concrete two-element vector. -/
theorem C7_roundtrip_amended_witness :
    r_to_ndarray_f32 ((fun x => x) : Int → Int) [3, 4] [2] = .ok ⟨[2], [3, 4]⟩ ∧
    ndarray_f32_to_r ((fun x => x) : Int → Int) ⟨[2], [3, 4]⟩ = .ok [3, 4] ∧
    get_r_array_shape ([3, 4] : List Int) = [2] :=
  C7_roundtrip_amended (fun x => x) (fun x => x) [3, 4] [2] (by decide)

/-- Counterexample for C7 as stated: a six-element vector encoded with
declared shape `[2, 3]` decodes to a flat dimensionless vector whose R
shape is `[6]`, not the declared `[2, 3]`. -/
theorem C7_counterexample :
    r_to_ndarray_f32 ((fun x => x) : Int → Int) [1, 2, 3, 4, 5, 6] [2, 3] =
      .ok ⟨[2, 3], [1, 2, 3, 4, 5, 6]⟩ ∧
    ndarray_f32_to_r ((fun x => x) : Int → Int) ⟨[2, 3], [1, 2, 3, 4, 5, 6]⟩ =
      .ok [1, 2, 3, 4, 5, 6] ∧
    get_r_array_shape ([1, 2, 3, 4, 5, 6] : List Int) = [6] ∧
    ([6] : List Nat) ≠ [2, 3] :=
  ⟨rfl, rfl, rfl, by decide⟩

/-- C1 (amended): the effective shape used to encode a numeric input is
always the session\x27s declared shape for that input with every `-1`
dimension coerced to `1`; the literal shape of the caller\x27s value is
never consulted, regardless of zeros or dynamic sentinels in the
declared shape. -/
theorem C1_effective_shape_amended (toF32 : F64 → F32) (s : RSession) (inputs : RList F64)
    (m : List (String × ArrayD F32)) (h : prepare_input_tensors toF32 s inputs = .ok m) :
    ∀ n t, (n, t) ∈ m → ∀ idx, listPosition (fun x => x == n) s.input_names = some idx →
      t.shape = (s.input_shapes.getD idx []).map dimToUsize :=
  prepare_go_shape toF32 s ((inputs.names.getD []).zip inputs.entries) [] m
    (fun _ _ hmem => absurd hmem (List.not_mem_nil _)) h

/-- Witness for C1 (amended): a declared shape `[-1, 3]` is encoded as
`[1, 3]` even though the value itself has three elements. -/
theorem C1_effective_shape_amended_witness :
    ([1, 3] : List Nat) = (([-1, 3] : List Int)).map dimToUsize :=
  C1_effective_shape_amended ((fun x => x) : Int → Int)
    ⟨["x"], ["y"], [[-1, 3]], [[1]], ["CPU"], "m"⟩
    ⟨[Robj.doubles [5, 6, 7]], some ["x"]⟩
    [("x", ⟨[1, 3], [5, 6, 7]⟩)] (by decide) "x" ⟨[1, 3], [5, 6, 7]⟩ (by decide) 0 (by decide)

/-- Counterexample for C1 as stated: the declared shape `[-1, 3]`
contains a dynamic sentinel, so per the claim a six-element value would
be encoded with its literal shape `[6]` and succeed; the code instead
coerces the declared shape to `[1, 3]` and rejects the value. -/
theorem C1_counterexample :
    effectiveShapeSpec [-1, 3] [6] = [6] ∧
    r_to_ndarray_f32 ((fun x => x) : Int → Int) [1, 2, 3, 4, 5, 6] [6] =
      .ok ⟨[6], [1, 2, 3, 4, 5, 6]⟩ ∧
    prepare_input_tensors ((fun x => x) : Int → Int)
        ⟨["x"], ["y"], [[-1, 3]], [[1]], ["CPU"], "m"⟩
        ⟨[Robj.doubles [1, 2, 3, 4, 5, 6]], some ["x"]⟩ =
      .error (.dataConversion ("Data length 6 doesn\x27t match shape [1, 3] (expected 3)")) :=
  ⟨rfl, rfl, rfl⟩

/-- C2: input validation of `run` is a closed-world exact-match check:
an empty bag, a nameless bag, a missing required input and an
unexpected provided input each fail with a `Validation` error (carrying
the first offending name), and validation succeeds exactly when the
provided name set equals the declared input name set. -/
theorem C2_validate_inputs_exact_match (s : RSession) (inputs : RList F64) :
    (inputs.entries.length = 0 →
      validate_inputs s inputs = .error (.validation ("No input data provided"))) ∧
    (inputs.entries.length ≠ 0 → (inputs.names.getD []).length = 0 →
      validate_inputs s inputs = .error (.validation ("Input data must be a named list"))) ∧
    (∀ required, inputs.entries.length ≠ 0 → (inputs.names.getD []).length ≠ 0 →
      s.input_names.find? (fun r => !((inputs.names.getD []).contains r)) = some required →
      validate_inputs s inputs =
        .error (.validation ("Required input \x27" ++ required ++ "\x27 not provided"))) ∧
    (∀ provided, inputs.entries.length ≠ 0 → (inputs.names.getD []).length ≠ 0 →
      s.input_names.find? (fun r => !((inputs.names.getD []).contains r)) = none →
      (inputs.names.getD []).find? (fun pn => !(s.input_names.contains pn)) = some provided →
      validate_inputs s inputs =
        .error (.validation ("Unexpected input \x27" ++ provided ++
          "\x27 provided. Expected inputs: " ++ debugStrList s.input_names))) ∧
    (validate_inputs s inputs = .ok () ↔
      inputs.entries.length ≠ 0 ∧ (inputs.names.getD []).length ≠ 0 ∧
      (∀ r ∈ s.input_names, r ∈ inputs.names.getD []) ∧
      (∀ pn ∈ inputs.names.getD [], pn ∈ s.input_names)) := by
  refine ⟨?_, ?_, ?_, ?_, ?_⟩
  · intro h1
    simp only [validate_inputs, if_pos h1]
  · intro h1 h2
    simp only [validate_inputs, if_neg h1, if_pos h2]
  · intro required h1 h2 hf
    simp only [validate_inputs, if_neg h1, if_neg h2, hf]
  · intro provided h1 h2 hf1 hf2
    simp only [validate_inputs, if_neg h1, if_neg h2, hf1, hf2]
  · constructor
    · intro h
      by_cases h1 : inputs.entries.length = 0
      · simp only [validate_inputs, if_pos h1] at h
        exact Except.noConfusion h
      by_cases h2 : (inputs.names.getD []).length = 0
      · simp only [validate_inputs, if_neg h1, if_pos h2] at h
        exact Except.noConfusion h
      cases hf1 : s.input_names.find? (fun r => !((inputs.names.getD []).contains r)) with
      | some r =>
        simp only [validate_inputs, if_neg h1, if_neg h2, hf1] at h
        exact Except.noConfusion h
      | none =>
        cases hf2 : (inputs.names.getD []).find? (fun pn => !(s.input_names.contains pn)) with
        | some pn =>
          simp only [validate_inputs, if_neg h1, if_neg h2, hf1, hf2] at h
          exact Except.noConfusion h
        | none =>
          refine ⟨h1, h2, ?_, ?_⟩
          · intro r hr
            have hq := List.find?_eq_none.mp hf1 r hr
            simpa using hq
          · intro pn hpn
            have hq := List.find?_eq_none.mp hf2 pn hpn
            simpa using hq
    · rintro ⟨h1, h2, hall1, hall2⟩
      have hf1 : s.input_names.find? (fun r => !((inputs.names.getD []).contains r)) = none := by
        refine List.find?_eq_none.mpr ?_
        intro r hr
        simpa using hall1 r hr
      have hf2 : (inputs.names.getD []).find? (fun pn => !(s.input_names.contains pn)) = none := by
        refine List.find?_eq_none.mpr ?_
        intro pn hpn
        simpa using hall2 pn hpn
      simp only [validate_inputs, if_neg h1, if_neg h2, hf1, hf2]

/-- Witness for C2: with declared inputs `a, b`, the exact bag
validates, and the bag holding only `a` fails naming `b`. -/
theorem C2_validate_inputs_exact_match_witness :
    validate_inputs ⟨["a", "b"], ["y"], [[1], [1]], [[1]], ["CPU"], "m"⟩
      (⟨[Robj.doubles [1], Robj.doubles [2]], some ["a", "b"]⟩ : RList Int) = .ok () ∧
    validate_inputs ⟨["a", "b"], ["y"], [[1], [1]], [[1]], ["CPU"], "m"⟩
      (⟨[Robj.doubles [1]], some ["a"]⟩ : RList Int) =
      .error (.validation ("Required input \x27b\x27 not provided")) := by
  constructor
  · exact (C2_validate_inputs_exact_match ⟨["a", "b"], ["y"], [[1], [1]], [[1]], ["CPU"], "m"⟩
      (⟨[Robj.doubles [1], Robj.doubles [2]], some ["a", "b"]⟩ : RList Int)).2.2.2.2.mpr
      ⟨by decide, by decide, by decide, by decide⟩
  · exact (C2_validate_inputs_exact_match ⟨["a", "b"], ["y"], [[1], [1]], [[1]], ["CPU"], "m"⟩
      (⟨[Robj.doubles [1]], some ["a"]⟩ : RList Int)).2.2.1 "b" (by decide) (by decide)
      (by decide)

/-- Each successful parse of a request yields, per provider, exactly as
many copies as there are request names resolving to it. -/
theorem parseProviders_count (names : List String) (eps : List ExecutionProvider)
    (h : parseProviders names = .ok eps) (p : ExecutionProvider) :
    eps.count p = names.countP (fun n => parseProvider n == Except.ok p) := by
  induction names generalizing eps with
  | nil =>
    simp only [parseProviders] at h
    cases h
    simp
  | cons n rest ih =>
    cases hp : parseProvider n with
    | error e =>
      simp only [parseProviders, hp] at h
      exact Except.noConfusion h
    | ok ep =>
      cases hrest : parseProviders rest with
      | error e =>
        simp only [parseProviders, hp, hrest] at h
        exact Except.noConfusion h
      | ok eps2 =>
        simp only [parseProviders, hp, hrest] at h
        cases h
        rw [List.count_cons, List.countP_cons, ih eps2 hrest]
        by_cases hpe : ep = p
        · simp [hp, hpe]
        · simp [hp, hpe]

/-- C3 (amended): every accepted request resolves to a non-empty list
containing CPU; CPU appears exactly once whenever the request names it
at most once, and sits last when the request does not name it at all;
the resolutions of `["cuda"]` and `["cpu"]` are exactly as claimed. -/
theorem C3_provider_list_amended :
    (∀ (providers : Option (List String)) (eps : List ExecutionProvider),
      get_execution_providers providers = .ok eps →
      eps ≠ [] ∧ ExecutionProvider.cpu ∈ eps ∧
      (requestedCpuCount providers ≤ 1 → eps.count ExecutionProvider.cpu = 1) ∧
      (requestedCpuCount providers = 0 → eps.getLast? = some ExecutionProvider.cpu)) ∧
    get_execution_providers (some ["cuda"]) = .ok [.cuda, .cpu] ∧
    get_execution_providers (some ["cpu"]) = .ok [.cpu] := by
  refine ⟨?_, by decide, by decide⟩
  intro providers eps h
  cases providers with
  | none =>
    simp only [get_execution_providers] at h
    cases h
    exact ⟨by decide, by decide, fun _ => by decide, fun _ => by decide⟩
  | some names =>
    cases hpp : parseProviders names with
    | error e =>
      simp only [get_execution_providers, hpp] at h
      exact Except.noConfusion h
    | ok l =>
      have hcount := parseProviders_count names l hpp ExecutionProvider.cpu
      by_cases hmem : ExecutionProvider.cpu ∈ l
      · simp [get_execution_providers, hpp, hmem] at h
        subst h
        refine ⟨?_, hmem, ?_, ?_⟩
        · intro hnil
          rw [hnil] at hmem
          exact List.not_mem_nil _ hmem
        · intro hle
          have hpos : 0 < l.count ExecutionProvider.cpu := List.count_pos_iff.mpr hmem
          have hreq : requestedCpuCount (some names) = l.count ExecutionProvider.cpu := by
            simp only [requestedCpuCount]
            exact hcount.symm
          omega
        · intro h0
          have hcnt0 : l.count ExecutionProvider.cpu = 0 := by
            simp only [requestedCpuCount] at h0
            rw [hcount]
            exact h0
          exact absurd hmem (List.count_eq_zero.mp hcnt0)
      · simp [get_execution_providers, hpp, hmem] at h
        subst h
        have hcnt0 : l.count ExecutionProvider.cpu = 0 := List.count_eq_zero.mpr hmem
        refine ⟨by simp, List.mem_append.mpr (Or.inr (by simp)), ?_, ?_⟩
        · intro _
          rw [List.count_append, hcnt0]
          decide
        · intro _
          exact List.getLast?_concat l

/-- Witness for C3 (amended) on the accepted request `["cuda"]`. -/
theorem C3_provider_list_amended_witness :
    ([ExecutionProvider.cuda, ExecutionProvider.cpu] : List ExecutionProvider) ≠ [] ∧
    ExecutionProvider.cpu ∈ [ExecutionProvider.cuda, ExecutionProvider.cpu] ∧
    List.count ExecutionProvider.cpu [ExecutionProvider.cuda, ExecutionProvider.cpu] = 1 ∧
    [ExecutionProvider.cuda, ExecutionProvider.cpu].getLast? = some ExecutionProvider.cpu := by
  have hc := C3_provider_list_amended.1 (some ["cuda"])
    [ExecutionProvider.cuda, ExecutionProvider.cpu] (by decide)
  exact ⟨hc.1, hc.2.1, hc.2.2.1 (by decide), hc.2.2.2 (by decide)⟩

/-- Counterexample for C3 as stated: requesting `["cpu", "cpu"]` is
accepted, yet the resolved list contains CPU twice, not exactly once. -/
theorem C3_counterexample :
    get_execution_providers (some ["cpu", "cpu"]) =
      .ok [ExecutionProvider.cpu, ExecutionProvider.cpu] ∧
    List.count ExecutionProvider.cpu [ExecutionProvider.cpu, ExecutionProvider.cpu] = 2 ∧
    (2 : Nat) ≠ 1 :=
  ⟨by decide, by decide, by decide⟩

/-- C4 (amended): resolution performs no deduplication: in an accepted
request every occurrence of a recognized name contributes one copy of
its provider, and the count of any provider in the result is the count
of request names resolving to it, plus one for the appended CPU
fall-back when no request name resolves to CPU. -/
theorem C4_no_dedup_amended (names : List String) (eps : List ExecutionProvider)
    (h : get_execution_providers (some names) = .ok eps) (p : ExecutionProvider) :
    eps.count p = names.countP (fun n => parseProvider n == Except.ok p) +
      (if p = ExecutionProvider.cpu ∧ requestedCpuCount (some names) = 0 then 1 else 0) := by
  cases hpp : parseProviders names with
  | error e =>
    simp only [get_execution_providers, hpp] at h
    exact Except.noConfusion h
  | ok l =>
    have hcount := parseProviders_count names l hpp
    by_cases hmem : ExecutionProvider.cpu ∈ l
    · simp [get_execution_providers, hpp, hmem] at h
      subst h
      have hpos : 0 < l.count ExecutionProvider.cpu := List.count_pos_iff.mpr hmem
      have hreq : requestedCpuCount (some names) ≠ 0 := by
        simp only [requestedCpuCount]
        rw [← hcount ExecutionProvider.cpu]
        omega
      rw [hcount p]
      simp [hreq]
    · simp [get_execution_providers, hpp, hmem] at h
      subst h
      have hcnt0 : l.count ExecutionProvider.cpu = 0 := List.count_eq_zero.mpr hmem
      have hreq : requestedCpuCount (some names) = 0 := by
        simp only [requestedCpuCount]
        rw [← hcount ExecutionProvider.cpu]
        exact hcnt0
      rw [List.count_append, hcount p]
      by_cases hpc : p = ExecutionProvider.cpu
      · subst hpc
        simp [hreq]
      · simp [List.count_cons, hpc, Ne.symm hpc]

/-- Witness for C4 (amended) on the duplicated request
`["cuda", "cuda"]`. -/
theorem C4_no_dedup_amended_witness :
    List.count ExecutionProvider.cuda
        [ExecutionProvider.cuda, ExecutionProvider.cuda, ExecutionProvider.cpu] =
      List.countP (fun n => parseProvider n == Except.ok ExecutionProvider.cuda)
        ["cuda", "cuda"] +
      (if ExecutionProvider.cuda = ExecutionProvider.cpu ∧
          requestedCpuCount (some ["cuda", "cuda"]) = 0 then 1 else 0) :=
  C4_no_dedup_amended ["cuda", "cuda"]
    [ExecutionProvider.cuda, ExecutionProvider.cuda, ExecutionProvider.cpu]
    (by decide) ExecutionProvider.cuda

/-- Counterexample for C4 as stated: `"cuda"` requested twice yields
CUDA twice, at both occurrence positions, not once. -/
theorem C4_counterexample :
    get_execution_providers (some ["cuda", "cuda"]) =
      .ok [ExecutionProvider.cuda, ExecutionProvider.cuda, ExecutionProvider.cpu] ∧
    List.count ExecutionProvider.cuda
      [ExecutionProvider.cuda, ExecutionProvider.cuda, ExecutionProvider.cpu] = 2 ∧
    (2 : Nat) ≠ 1 :=
  ⟨by decide, by decide, by decide⟩

/-- Per-index characterization of a successful decode loop run: entry
`j` is the `j`-th declared output name paired with the widened `f32`
data or the `f64` data of engine output `j`, and no engine output of
any other type occurs. -/
theorem convert_outputs_go_ok (toF64 : F32 → F64) (s : RSession) :
    ∀ (outputs : List (OrtValue F32 F64)) (i : Nat) (l : List (String × Robj F64)),
      convert_outputs_go toF64 s i outputs = .ok l →
      l.length = outputs.length ∧
      ∀ j (hj : j < outputs.length),
        match outputs[j] with
        | .f32 t => l[j]? = some (outputName s (i + j), Robj.doubles (t.data.map toF64))
        | .f64 t => l[j]? = some (outputName s (i + j), Robj.doubles t.data)
        | .other => False := by
  intro outputs
  induction outputs with
  | nil =>
    intro i l h
    simp only [convert_outputs_go] at h
    cases h
    exact ⟨rfl, fun j hj => absurd hj (Nat.not_lt_zero j)⟩
  | cons output rest ih =>
    intro i l h
    cases output with
    | f32 t =>
      cases hrest : convert_outputs_go toF64 s (i + 1) rest with
      | error e =>
        simp only [convert_outputs_go, ndarray_f32_to_r, hrest] at h
        exact Except.noConfusion h
      | ok l2 =>
        simp only [convert_outputs_go, ndarray_f32_to_r, hrest] at h
        cases h
        obtain ⟨hlen, hspec⟩ := ih (i + 1) l2 hrest
        refine ⟨by simp [hlen], ?_⟩
        intro j hj
        cases j with
        | zero => simp
        | succ j2 =>
          have hj2 : j2 < rest.length := by simpa using hj
          have hind := hspec j2 hj2
          have harith : i + 1 + j2 = i + (j2 + 1) := by omega
          rw [harith] at hind
          simpa using hind
    | f64 t =>
      cases hrest : convert_outputs_go toF64 s (i + 1) rest with
      | error e =>
        simp only [convert_outputs_go, ndarray_f64_to_r, hrest] at h
        exact Except.noConfusion h
      | ok l2 =>
        simp only [convert_outputs_go, ndarray_f64_to_r, hrest] at h
        cases h
        obtain ⟨hlen, hspec⟩ := ih (i + 1) l2 hrest
        refine ⟨by simp [hlen], ?_⟩
        intro j hj
        cases j with
        | zero => simp
        | succ j2 =>
          have hj2 : j2 < rest.length := by simpa using hj
          have hind := hspec j2 hj2
          have harith : i + 1 + j2 = i + (j2 + 1) := by omega
          rw [harith] at hind
          simpa using hind
    | other =>
      simp only [convert_outputs_go] at h
      exact Except.noConfusion h

/-- The decode loop fails exactly at the first engine output that is
neither `f32` nor `f64`, naming the output it was positioned at. -/
theorem convert_outputs_go_err (toF64 : F32 → F64) (s : RSession) :
    ∀ (outputs : List (OrtValue F32 F64)) (i k : Nat) (hk : k < outputs.length),
      outputs[k] = OrtValue.other →
      (∀ j (hj : j < outputs.length), j < k → outputs[j] ≠ OrtValue.other) →
      convert_outputs_go toF64 s i outputs =
        .error (.dataConversion ("Unsupported output data type for \x27" ++
          outputName s (i + k) ++ "\x27")) := by
  intro outputs
  induction outputs with
  | nil =>
    intro i k hk
    exact absurd hk (Nat.not_lt_zero k)
  | cons output rest ih =>
    intro i k hk hother hprev
    cases k with
    | zero =>
      simp only [List.getElem_cons_zero] at hother
      subst hother
      simp [convert_outputs_go]
    | succ k2 =>
      have hne : output ≠ OrtValue.other := by
        have hp := hprev 0 (by simp) (by omega)
        simpa using hp
      have hk2 : k2 < rest.length := by simpa using hk
      have hother2 : rest[k2] = OrtValue.other := by simpa using hother
      have hprev2 : ∀ j (hj : j < rest.length), j < k2 → rest[j] ≠ OrtValue.other := by
        intro j hj hjk
        have hp := hprev (j + 1) (by simpa using Nat.succ_lt_succ hj) (by omega)
        simpa using hp
      have hrec := ih (i + 1) k2 hk2 hother2 hprev2
      have harith : i + 1 + k2 = i + (k2 + 1) := by omega
      rw [harith] at hrec
      cases output with
      | f32 t => simp [convert_outputs_go, ndarray_f32_to_r, hrec]
      | f64 t => simp [convert_outputs_go, ndarray_f64_to_r, hrec]
      | other => exact absurd rfl hne

/-- C5: output decoding attempts the 32-bit float extraction first and
widens it element-wise through the 64-bit cast, falls back to the
64-bit extraction, fails with a `DataConversion` error naming the
first output of any other type, and always hands the caller 64-bit
double vectors. -/
theorem C5_output_decoding (toF64 : F32 → F64) (s : RSession)
    (outputs : List (OrtValue F32 F64)) :
    (∀ res, convert_outputs_to_r toF64 s outputs = .ok res →
      res.entries.length = outputs.length ∧
      ∀ j (hj : j < outputs.length),
        match outputs[j] with
        | .f32 t => res.entries[j]? = some (Robj.doubles (t.data.map toF64))
        | .f64 t => res.entries[j]? = some (Robj.doubles t.data)
        | .other => False) ∧
    (∀ k (hk : k < outputs.length), outputs[k] = OrtValue.other →
      (∀ j (hj : j < outputs.length), j < k → outputs[j] ≠ OrtValue.other) →
      convert_outputs_to_r toF64 s outputs =
        .error (.dataConversion ("Unsupported output data type for \x27" ++
          outputName s k ++ "\x27"))) := by
  constructor
  · intro res h
    cases hgo : convert_outputs_go toF64 s 0 outputs with
    | error e =>
      simp only [convert_outputs_to_r, hgo] at h
      exact Except.noConfusion h
    | ok pairs =>
      simp only [convert_outputs_to_r, hgo] at h
      cases h
      obtain ⟨hlen, hspec⟩ := convert_outputs_go_ok toF64 s outputs 0 pairs hgo
      refine ⟨by simpa using hlen, ?_⟩
      intro j hj
      have hind := hspec j hj
      cases houtj : outputs[j] with
      | f32 t =>
        rw [houtj] at hind
        simp [List.getElem?_map, hind]
      | f64 t =>
        rw [houtj] at hind
        simp [List.getElem?_map, hind]
      | other =>
        rw [houtj] at hind
        exact hind.elim
  · intro k hk hother hprev
    have hgo := convert_outputs_go_err toF64 s outputs 0 k hk hother hprev
    rw [Nat.zero_add] at hgo
    simp only [convert_outputs_to_r, hgo]

/-- Witness for C5: an `f32` engine output decodes (widened) at its
position of the result bag. -/
theorem C5_output_decoding_witness :
    ([Robj.doubles ([1, 2] : List Int), Robj.doubles [9]] : List (Robj Int))[0]? =
      some (Robj.doubles [1, 2]) := by
  have hc := (C5_output_decoding ((fun x => x) : Int → Int)
    ⟨["x"], ["a", "b"], [[1]], [[1], [1]], ["CPU"], "m"⟩
    [OrtValue.f32 ⟨[2], [1, 2]⟩, OrtValue.f64 ⟨[1], [9]⟩]).1
    ⟨[Robj.doubles [1, 2], Robj.doubles [9]], some ["a", "b"]⟩ (by decide)
  exact hc.2 0 (by decide)

/-- C6 (amended): decoded outputs come back positionally in the order
the engine returned them: the i-th engine output is paired with the
i-th declared output name (with fall-back name `output_i` past the
declared list), and fewer engine outputs than declared names simply
produce a shorter bag, with no missing-output error. -/
theorem C6_positional_outputs_amended (toF64 : F32 → F64) (s : RSession)
    (outputs : List (OrtValue F32 F64)) (res : RList F64)
    (h : convert_outputs_to_r toF64 s outputs = .ok res) :
    res.entries.length = outputs.length ∧
    res.names ≠ none ∧
    ∀ names, res.names = some names →
      names.length = outputs.length ∧
      ∀ j, j < outputs.length → names[j]? = some (outputName s j) := by
  cases hgo : convert_outputs_go toF64 s 0 outputs with
  | error e =>
    simp only [convert_outputs_to_r, hgo] at h
    exact Except.noConfusion h
  | ok pairs =>
    simp only [convert_outputs_to_r, hgo] at h
    cases h
    obtain ⟨hlen, hspec⟩ := convert_outputs_go_ok toF64 s outputs 0 pairs hgo
    refine ⟨by simpa using hlen, by simp, ?_⟩
    intro names hnames
    have hn := Option.some.inj hnames
    subst hn
    refine ⟨by simpa using hlen, ?_⟩
    intro j hj
    have hind := hspec j hj
    cases houtj : outputs[j] with
    | f32 t =>
      rw [houtj] at hind
      simp [List.getElem?_map, hind]
    | f64 t =>
      rw [houtj] at hind
      simp [List.getElem?_map, hind]
    | other =>
      rw [houtj] at hind
      exact hind.elim

/-- Witness for C6 (amended): a single engine output gets the first
declared output name. -/
theorem C6_positional_outputs_amended_witness :
    (["a"] : List String)[0]? =
      some (outputName ⟨["x"], ["a", "b"], [[1]], [[1], [1]], ["CPU"], "m"⟩ 0) := by
  have hc := C6_positional_outputs_amended ((fun x => x) : Int → Int)
    ⟨["x"], ["a", "b"], [[1]], [[1], [1]], ["CPU"], "m"⟩
    [OrtValue.f64 ⟨[1], [7]⟩] ⟨[Robj.doubles [7]], some ["a"]⟩ (by decide)
  exact (hc.2.2 ["a"] rfl).2 0 (by decide)

/-- Counterexample for C6 as stated: with two declared outputs but one
engine output, decoding succeeds with a one-entry bag instead of
failing with an Inference error naming the absent output. -/
theorem C6_counterexample :
    convert_outputs_to_r ((fun x => x) : Int → Int)
        ⟨["x"], ["a", "b"], [[1]], [[1], [1]], ["CPU"], "m"⟩
        [OrtValue.f64 ⟨[1], [7]⟩] =
      .ok (⟨[Robj.doubles [7]], some ["a"]⟩ : RList Int) ∧
    ∀ e : ChurOnError,
      convert_outputs_to_r ((fun x => x) : Int → Int)
          ⟨["x"], ["a", "b"], [[1]], [[1], [1]], ["CPU"], "m"⟩
          [OrtValue.f64 ⟨[1], [7]⟩] ≠ .error e := by
  constructor
  · decide
  · intro e hc
    have h1 : convert_outputs_to_r ((fun x => x) : Int → Int)
        ⟨["x"], ["a", "b"], [[1]], [[1], [1]], ["CPU"], "m"⟩
        [OrtValue.f64 ⟨[1], [7]⟩] =
        .ok (⟨[Robj.doubles [7]], some ["a"]⟩ : RList Int) := by decide
    rw [h1] at hc
    exact Except.noConfusion hc

end Churon
